import Mathlib

/-!
Shallow embedding of `src/main.rs` (CrabeDeFrance/read_dir), a benchmark that
races five directory-observation strategies against a background file producer.

Modelling conventions:
* `std::io::Error` values are abstracted as `Nat` codes (`Err`).
* Paths (`PathBuf`) are abstracted as `Nat` identifiers.
* The filesystem is the environment: each strategy is embedded as a function
  over a sequence of listing / event-batch results, indexed by the pass number,
  plus a fuel argument bounding how many passes the unbounded `loop` may take.
  Returning `none` means the source loop has not returned within `fuel` passes;
  `some` is a normal (or error-propagating) return of the Rust function.
* The Rust functions return `Result<()>`; the embeddings additionally expose
  the final value of the local observation counter (and, for the sorted
  variant, the ordered map), so that the specified properties about those
  internal values can be stated.
-/

/-- Abstract `std::io::Error`: just an error code. -/
abbrev Err := Nat

/-- Abstract `std::fs::DirEntry` as seen by `read_dir`: only its path is used. -/
structure DirEntry where
  path : Nat
deriving DecidableEq, Repr

/-- One result of `std::fs::read_dir(dir)`: either an I/O error or the list of
per-entry results (each entry itself may be an `io::Result` error, matching
`entry?` in the source). -/
abbrev Listing := Except Err (List (Except Err DirEntry))

/-! ## `create_files` (src/main.rs lines 14-29)

```rust
fn create_files(rx: Receiver<()>, dir: String) {
    let mut count = 1;
    loop {
        match rx.try_recv() {
            Ok(_) | Err(TryRecvError::Disconnected) => { println!("Terminating."); break; }
            Err(TryRecvError::Empty) => {}
        }
        let mut file = File::create(format!("{dir}/file{count}.txt")).unwrap();
        file.write_all(b"Hello, world!").unwrap();
        count += 1;
    }
}
```

The producer is embedded as a function of the sequence of `try_recv`
observations (one per loop iteration, indexed by the 0-based iteration
number `k`; the Rust `count` equals `k + 1`).  It returns the list of files
created, in creation order.  `fuel` bounds the number of iterations modelled;
an exhausted fuel truncates the (still running) loop. -/

/-- Result of `Receiver::try_recv` in the producer loop. -/
inductive TryRecv where
  | okUnit
  | disconnected
  | empty
deriving DecidableEq, Repr

/-- A file created by the producer: its name and its content. -/
structure FileCreate where
  name : String
  content : String
deriving DecidableEq, Repr

/-- `File::create(format!(...file{count}.txt)).write_all(b"Hello, world!")`
for `count = n`. -/
def mkFile (n : Nat) : FileCreate :=
  { name := "file" ++ toString n ++ ".txt", content := "Hello, world!" }

/-- The producer loop from iteration `k` on (Rust `count = k + 1`). -/
def createFilesGo (sig : Nat → TryRecv) : Nat → Nat → List FileCreate
  | 0, _ => []
  | fuel + 1, k =>
    match sig k with
    | .empty => mkFile (k + 1) :: createFilesGo sig fuel (k + 1)
    | _ => []

/-- `create_files`: the whole producer run, from `count = 1`. -/
def create_files (sig : Nat → TryRecv) (fuel : Nat) : List FileCreate :=
  createFilesGo sig fuel 0

/-! ## `read_dir` (src/main.rs lines 31-50)

```rust
fn read_dir(dir: &String, max: usize) -> std::io::Result<()> {
    let mut count = 0;
    loop {
        for entry in std::fs::read_dir(dir)? {
            count += 1;
            let _path = entry?.path();
            if count == max { break; }
        }
        if count == max { break; }
    }
    Ok(())
}
```
-/

/-- The inner `for entry in std::fs::read_dir(dir)?` loop of `read_dir`:
`count` is incremented per entry *before* `entry?` can propagate an error,
and the loop breaks as soon as `count == max`. -/
def readDirInner (max : Nat) : List (Except Err DirEntry) → Nat → Except Err Nat
  | [], count => .ok count
  | e :: rest, count =>
    let count := count + 1
    match e with
    | .error err => .error err
    | .ok _ =>
      if count = max then .ok count
      else readDirInner max rest count

/-- The outer `loop` of `read_dir`.  `env pass` is the result of the
`pass`-th call to `std::fs::read_dir(dir)`; a listing error propagates via
`?`.  `none` = still looping after `fuel` passes; `some (.ok c)` = the
function returned `Ok(())` with final counter `c`. -/
def readDirLoop (max : Nat) (env : Nat → Listing) : Nat → Nat → Nat →
    Option (Except Err Nat)
  | 0, _, _ => none
  | fuel + 1, pass, count =>
    match env pass with
    | .error e => some (.error e)
    | .ok entries =>
      match readDirInner max entries count with
      | .error e => some (.error e)
      | .ok count1 =>
        if count1 = max then some (.ok count1)
        else readDirLoop max env fuel (pass + 1) count1

/-- `read_dir`: run the outer loop from pass 0 with `count = 0`. -/
def read_dir (max : Nat) (env : Nat → Listing) (fuel : Nat) :
    Option (Except Err Nat) :=
  readDirLoop max env fuel 0 0

/-! ## `read_dir_sorted` (src/main.rs lines 52-108)

```rust
fn read_dir_sorted(dir: &String, max: usize) -> std::io::Result<()> {
    let mut ordered_files: BTreeMap<u128, VecDeque<PathBuf>> = BTreeMap::new();
    let mut count = 0;
    loop {
        for entry in std::fs::read_dir(dir)? {
            count += 1;
            let path = entry?.path();
            let modified_date = match std::fs::metadata(&path) {
                Ok(metadata) => metadata.modified(),
                Err(e) => { println!(...); continue; }
            };
            let duration = match modified_date {
                Ok(t) => t.duration_since(UNIX_EPOCH),
                Err(e) => { println!(...); continue; }
            };
            let duration = match duration {
                Ok(duration) => duration,
                Err(e) => { println!(...); continue; }
            };
            let duration_nano = duration.as_nanos();
            if let Some(row) = ordered_files.get_mut(&duration_nano) {
                row.push_front(path);
            } else {
                let mut v = VecDeque::new();
                v.push_front(path);
                ordered_files.insert(duration_nano, v);
            }
            if count == max { break; }
        }
        if count == max { break; }
    }
    Ok(())
}
```

The per-path filesystem lookups (`fs::metadata`, `Metadata::modified`,
`SystemTime::duration_since(UNIX_EPOCH)`, `Duration::as_nanos`) are flattened
into a `ModifiedInfo` carried by each entry in the environment: one
constructor per failing step, or the resulting nanosecond value. -/

/-- Outcome of the three chained lookups on one entry's modification time. -/
inductive ModifiedInfo where
  | metaErr (e : Err)
  | modifiedErr (e : Err)
  | epochErr (e : Err)
  | nanos (n : Nat)
deriving DecidableEq, Repr

/-- A directory entry as consumed by `read_dir_sorted`: its path plus what the
filesystem answers for its modification time at this pass. -/
structure FileInfo where
  path : Nat
  modified : ModifiedInfo
deriving DecidableEq, Repr

/-- One `std::fs::read_dir(dir)` result in the sorted strategy's environment. -/
abbrev SortedListing := Except Err (List (Except Err FileInfo))

/-- The `BTreeMap<u128, VecDeque<PathBuf>>`, modelled as an association list
sorted by strictly increasing key; each value list is the `VecDeque` with its
front at the head. -/
abbrev OrderedFiles := List (Nat × List Nat)

/-- The `get_mut`/`push_front`/`insert` block: push `path` at the front of the
row for `key` if present, otherwise insert a fresh singleton row, keeping the
keys sorted (the `BTreeMap` invariant). -/
def insertOrdered (key path : Nat) : OrderedFiles → OrderedFiles
  | [] => [(key, [path])]
  | (k, row) :: rest =>
    if key < k then (key, [path]) :: (k, row) :: rest
    else if key = k then (k, path :: row) :: rest
    else (k, row) :: insertOrdered key path rest

/-- The inner `for` loop of `read_dir_sorted`.  `count` is incremented before
the metadata lookups; each failing lookup `continue`s to the next entry
(skipping the `if count == max` check); a successful lookup inserts into the
map and then checks the target. -/
def readDirSortedInner (max : Nat) :
    List (Except Err FileInfo) → Nat → OrderedFiles →
    Except Err (Nat × OrderedFiles)
  | [], count, m => .ok (count, m)
  | e :: rest, count, m =>
    let count := count + 1
    match e with
    | .error err => .error err
    | .ok info =>
      match info.modified with
      | .nanos n =>
        let m := insertOrdered n info.path m
        if count = max then .ok (count, m)
        else readDirSortedInner max rest count m
      | _ => readDirSortedInner max rest count m

/-- The outer `loop` of `read_dir_sorted`; same shape as `readDirLoop`, with
the ordered map threaded through. -/
def readDirSortedLoop (max : Nat) (env : Nat → SortedListing) :
    Nat → Nat → Nat → OrderedFiles → Option (Except Err (Nat × OrderedFiles))
  | 0, _, _, _ => none
  | fuel + 1, pass, count, m =>
    match env pass with
    | .error e => some (.error e)
    | .ok entries =>
      match readDirSortedInner max entries count m with
      | .error e => some (.error e)
      | .ok (count1, m1) =>
        if count1 = max then some (.ok (count1, m1))
        else readDirSortedLoop max env fuel (pass + 1) count1 m1

/-- `read_dir_sorted`: run from pass 0, `count = 0`, empty map. -/
def read_dir_sorted (max : Nat) (env : Nat → SortedListing) (fuel : Nat) :
    Option (Except Err (Nat × OrderedFiles)) :=
  readDirSortedLoop max env fuel 0 0 []

/-! ## `read_inotify` (src/main.rs lines 110-140)

```rust
fn read_inotify(dir: &String, max: usize) {
    let mut inotify = Inotify::init().expect(...);
    inotify.watches().add(dir, WatchMask::CLOSE_WRITE).expect(...);
    let mut buffer = [0; 8096];
    let mut count = 0;
    loop {
        let events = inotify.read_events_blocking(&mut buffer).expect(...);
        for event in events {
            if let Some(_filename) = event.name {
                count += 1;
                if count == max { break; }
            }
        }
        if count == max { break; }
    }
}
```
-/

/-- A decoded inotify event: only its optional entry name matters (names are
abstracted as `Nat`). -/
structure InotifyEvent where
  name : Option Nat
deriving DecidableEq, Repr

/-- The inner `for event in events` loop: count only events carrying a name,
breaking as soon as `count == max`. -/
def readInotifyInner (max : Nat) : List InotifyEvent → Nat → Nat
  | [], count => count
  | ev :: rest, count =>
    match ev.name with
    | some _ =>
      let count := count + 1
      if count = max then count
      else readInotifyInner max rest count
    | none => readInotifyInner max rest count

/-- The outer `loop` of `read_inotify`.  `env pass` is the `pass`-th
`read_events_blocking` result; an error there hits `.expect` (fatal), which we
surface as `some (.error e)`. -/
def readInotifyLoop (max : Nat) (env : Nat → Except Err (List InotifyEvent)) :
    Nat → Nat → Nat → Option (Except Err Nat)
  | 0, _, _ => none
  | fuel + 1, pass, count =>
    match env pass with
    | .error e => some (.error e)
    | .ok events =>
      let count1 := readInotifyInner max events count
      if count1 = max then some (.ok count1)
      else readInotifyLoop max env fuel (pass + 1) count1

/-- `read_inotify`: run from pass 0 with `count = 0`. -/
def read_inotify (max : Nat) (env : Nat → Except Err (List InotifyEvent))
    (fuel : Nat) : Option (Except Err Nat) :=
  readInotifyLoop max env fuel 0 0

/-! ## `read_inotify_async` (src/main.rs lines 142-171)

```rust
rt.block_on(async {
    let mut stream = inotify.into_event_stream(&mut buffer).unwrap();
    let mut count = 0;
    loop {
        tokio::select! {
            _event = stream.next() => {
                count += 1;
                if count == max { break; }
            },
        }
    }
});
```

`stream.next()` yields `Option<Result<Event>>` items; the select arm binds the
whole item to `_event` and increments `count` unconditionally — named events,
nameless events, stream errors and end-of-stream `None` items all count. -/

/-- One `stream.next()` item: `none` = end of stream, otherwise a decode
result. -/
abbrev StreamItem := Option (Except Err InotifyEvent)

/-- The `loop`/`select` of `read_inotify_async`: `stream idx` is the `idx`-th
item; every item increments the counter. -/
def readInotifyAsyncLoop (max : Nat) (stream : Nat → StreamItem) :
    Nat → Nat → Nat → Option Nat
  | 0, _, _ => none
  | fuel + 1, idx, count =>
    let _event := stream idx
    let count := count + 1
    if count = max then some count
    else readInotifyAsyncLoop max stream fuel (idx + 1) count

/-- `read_inotify_async`: run from item 0 with `count = 0`. -/
def read_inotify_async (max : Nat) (stream : Nat → StreamItem) (fuel : Nat) :
    Option Nat :=
  readInotifyAsyncLoop max stream fuel 0 0

/-! ## `read_dir_tokio` (src/main.rs lines 173-194)

```rust
rt.block_on(async {
    let mut read_dir = tokio::fs::read_dir(dir).await.unwrap();
    let mut count = 0;
    loop {
        tokio::select! {
            event = read_dir.next_entry() => {
                if let Ok(Some(_file)) = event {
                    count += 1;
                    if count == max { break; }
                }
            },
        }
    }
});
```

`tokio::fs::read_dir` is called exactly once, before the loop; the resulting
handle is a single listing consumed by `next_entry()`:
`Ok(Some(entry))` per remaining entry, `Err(e)` for a per-entry error
(consumed, not propagated — the `if let Ok(Some(..))` silently skips it), and
`Ok(None)` forever once the listing is exhausted (no re-listing ever occurs).
The handle is modelled as the list of remaining per-entry results. -/

/-- The `loop`/`select` of `read_dir_tokio` over the remaining entries of the
single listing.  On an exhausted listing the arm sees `Ok(None)`, counts
nothing, and loops again on the same (empty) remainder. -/
def readDirTokioLoop (max : Nat) : Nat → List (Except Err DirEntry) → Nat →
    Option Nat
  | 0, _, _ => none
  | fuel + 1, [], count => readDirTokioLoop max fuel [] count
  | fuel + 1, item :: rest, count =>
    match item with
    | .ok _ =>
      let count := count + 1
      if count = max then some count
      else readDirTokioLoop max fuel rest count
    | .error _ => readDirTokioLoop max fuel rest count

/-- `read_dir_tokio`: `openRes` is the one `tokio::fs::read_dir(dir)` result;
`unwrap` on its error is fatal (surfaced as `.error`).  The loop then runs
with `count = 0`. -/
def read_dir_tokio (max : Nat) (openRes : Listing) (fuel : Nat) :
    Except Err (Option Nat) :=
  match openRes with
  | .error e => .error e
  | .ok listing => .ok (readDirTokioLoop max fuel listing 0)

/-! ## `main` — startup and output (src/main.rs lines 196-281)

```rust
fn main() {
    let max_files = 200_000;
    let args: Vec<String> = env::args().collect();
    if args.len() != 2 { panic!("invalid number of arguments"); }
    let dir: String = args[1].clone();
    if std::fs::metadata(&dir).is_ok() { panic!("Error: path {dir} exists"); }
    std::fs::create_dir_all(&dir).unwrap();
    ...
    println!("read_dir duration: {}.{:0>3}s", elapsed.as_secs(), elapsed.as_millis());
    ...
}
```
-/

/-- A resource-creating effect of `main`'s startup. -/
inductive SetupEffect where
  | createDirAll (dir : String)
deriving DecidableEq, Repr

/-- Startup of `main`: argument-count check, pre-existence check
(`pathExists` = `std::fs::metadata(&dir).is_ok()`), then
`std::fs::create_dir_all(&dir)`.  Returns the list of resource-creating
effects performed, and `some msg` when the corresponding `panic!` fires. -/
def mainStartup (args : List String) (pathExists : Bool) :
    List SetupEffect × Option String :=
  if args.length ≠ 2 then ([], some "invalid number of arguments")
  else
    let dir := args.getD 1 ""
    if pathExists then ([], some ("Error: path " ++ dir ++ " exists"))
    else ([SetupEffect.createDirAll dir], none)

/-- A `std::time::Duration` at millisecond granularity: whole seconds plus
milliseconds within the current second (`subsecMillis < 1000` for real
durations).  `Duration::as_secs` and `Duration::as_millis` are the only
accessors `main` uses. -/
structure Dur where
  secs : Nat
  subsecMillis : Nat
deriving DecidableEq, Repr

/-- `Duration::as_secs`. -/
def asSecs (d : Dur) : Nat := d.secs

/-- `Duration::as_millis`: the TOTAL number of milliseconds. -/
def asMillis (d : Dur) : Nat := d.secs * 1000 + d.subsecMillis

/-- The format spec fragment in the source pads its argument on the left with
the fill character to a minimum width of 3. -/
def pad3 (s : String) : String :=
  if 3 ≤ s.length then s else String.mk (List.replicate (3 - s.length) '0') ++ s

/-- One timing line of `main`:
`println!("<name> duration: {}.{:0>3}s", elapsed.as_secs(), elapsed.as_millis())`.
Note the second argument is `as_millis()` (total milliseconds), not the
milliseconds within the current second. -/
def durationLine (name : String) (d : Dur) : String :=
  name ++ " duration: " ++ toString (asSecs d) ++ "."
    ++ pad3 (toString (asMillis d)) ++ "s"

/-- The five timing lines printed by `main`, in program order, given the five
measured durations. -/
def mainOutputLines (dU dS dT dW dA : Dur) : List String :=
  [ durationLine "read_dir" dU
  , durationLine "read_dir_sorted" dS
  , durationLine "readdir tokio" dT
  , durationLine "inotify" dW
  , durationLine "inotify async" dA ]

/-- Spec-described timing line ("the part after the dot is the
milliseconds-within-the-current-second component"), for comparison with
`durationLine`. -/
def specDurationLine (name : String) (d : Dur) : String :=
  name ++ " duration: " ++ toString (asSecs d) ++ "."
    ++ pad3 (toString d.subsecMillis) ++ "s"

/-- Modelled mpsc one-shot channel: the Stop Signal is set (sent, or the
sender dropped) at producer-timeline instant `setAt`; `try_recv` at instant
`t` observes `Empty` strictly before that instant and a positive result
(`Ok(())`, or `Disconnected` which the producer handles identically) from
then on. -/
def observes (setAt t : Nat) : TryRecv :=
  if setAt ≤ t then .okUnit else .empty

/-- Producer timeline: the `try_recv` check of 0-based iteration `k` happens
at instant `2*k` and the file creation of that iteration at instant
`2*k + 1` (check-then-create ordering). -/
def sigOf (setAt : Nat) : Nat → TryRecv := fun k => observes setAt (2 * k)

/-- All paths stored under `key` in the map, front of the `VecDeque` first. -/
def pathsAt (key : Nat) : OrderedFiles → List Nat
  | [] => []
  | (k, row) :: rest =>
    if k = key then row ++ pathsAt key rest else pathsAt key rest

/-! ## Helper lemmas -/

/-- `read_dir`'s outer loop only returns `Ok` with the counter equal to the
target. -/
theorem readDirLoop_ok_eq (max : Nat) (env : Nat → Listing) :
    ∀ fuel pass count c,
      readDirLoop max env fuel pass count = some (.ok c) → c = max := by
  intro fuel
  induction fuel with
  | zero => intro pass count c h; simp [readDirLoop] at h
  | succ n ih =>
    intro pass count c h
    rw [readDirLoop] at h
    cases henv : env pass with
    | error e => simp only [henv] at h; simp at h
    | ok entries =>
      simp only [henv] at h
      cases hin : readDirInner max entries count with
      | error e => simp only [hin] at h; simp at h
      | ok c1 =>
        simp only [hin] at h
        by_cases hc : c1 = max
        · rw [if_pos hc] at h
          simp only [Option.some.injEq, Except.ok.injEq] at h
          omega
        · rw [if_neg hc] at h; exact ih _ _ _ h

/-- `read_dir_sorted`'s outer loop only returns `Ok` with the counter equal
to the target. -/
theorem readDirSortedLoop_ok_eq (max : Nat) (env : Nat → SortedListing) :
    ∀ fuel pass count m c m1,
      readDirSortedLoop max env fuel pass count m = some (.ok (c, m1)) →
      c = max := by
  intro fuel
  induction fuel with
  | zero => intro pass count m c m1 h; simp [readDirSortedLoop] at h
  | succ n ih =>
    intro pass count m c m1 h
    rw [readDirSortedLoop] at h
    cases henv : env pass with
    | error e => simp only [henv] at h; simp at h
    | ok entries =>
      simp only [henv] at h
      cases hin : readDirSortedInner max entries count m with
      | error e => simp only [hin] at h; simp at h
      | ok p =>
        obtain ⟨c1, m2⟩ := p
        simp only [hin] at h
        by_cases hc : c1 = max
        · rw [if_pos hc] at h
          simp only [Option.some.injEq, Except.ok.injEq, Prod.mk.injEq] at h
          omega
        · rw [if_neg hc] at h; exact ih _ _ _ _ _ h

/-- `read_inotify`'s outer loop only returns `Ok` with the counter equal to
the target. -/
theorem readInotifyLoop_ok_eq (max : Nat)
    (env : Nat → Except Err (List InotifyEvent)) :
    ∀ fuel pass count c,
      readInotifyLoop max env fuel pass count = some (.ok c) → c = max := by
  intro fuel
  induction fuel with
  | zero => intro pass count c h; simp [readInotifyLoop] at h
  | succ n ih =>
    intro pass count c h
    rw [readInotifyLoop] at h
    cases henv : env pass with
    | error e => simp only [henv] at h; simp at h
    | ok events =>
      simp only [henv] at h
      by_cases hc : readInotifyInner max events count = max
      · rw [if_pos hc] at h
        simp only [Option.some.injEq, Except.ok.injEq] at h
        omega
      · rw [if_neg hc] at h; exact ih _ _ _ h

/-- `read_dir_tokio`'s loop only returns with the counter equal to the
target. -/
theorem readDirTokioLoop_ok_eq (max : Nat) :
    ∀ fuel l count c,
      readDirTokioLoop max fuel l count = some c → c = max := by
  intro fuel
  induction fuel with
  | zero => intro l count c h; simp [readDirTokioLoop] at h
  | succ n ih =>
    intro l count c h
    match l with
    | [] => rw [readDirTokioLoop] at h; exact ih _ _ _ h
    | .error e :: rest => rw [readDirTokioLoop] at h; exact ih _ _ _ h
    | .ok d :: rest =>
      rw [readDirTokioLoop] at h
      by_cases hc : count + 1 = max
      · rw [if_pos hc] at h
        simp only [Option.some.injEq] at h
        omega
      · rw [if_neg hc] at h; exact ih _ _ _ h

/-- `read_inotify_async`'s loop only returns with the counter equal to the
target. -/
theorem readInotifyAsyncLoop_ok_eq (max : Nat) (stream : Nat → StreamItem) :
    ∀ fuel idx count c,
      readInotifyAsyncLoop max stream fuel idx count = some c → c = max := by
  intro fuel
  induction fuel with
  | zero => intro idx count c h; simp [readInotifyAsyncLoop] at h
  | succ n ih =>
    intro idx count c h
    rw [readInotifyAsyncLoop] at h
    by_cases hc : count + 1 = max
    · rw [if_pos hc] at h
      simp only [Option.some.injEq] at h
      omega
    · rw [if_neg hc] at h; exact ih _ _ _ h

/-- Every element of `insertOrdered key p m` has key `key` or a key already
in `m`. -/
theorem insertOrdered_mem_key (key p : Nat) :
    ∀ m x, x ∈ insertOrdered key p m → x.1 = key ∨ ∃ y ∈ m, x.1 = y.1 := by
  intro m
  induction m with
  | nil =>
    intro x hx
    simp [insertOrdered] at hx
    left; rw [hx]
  | cons hd tl ih =>
    obtain ⟨k, row⟩ := hd
    intro x hx
    rw [insertOrdered] at hx
    by_cases h1 : key < k
    · rw [if_pos h1] at hx
      rcases List.mem_cons.mp hx with hx | hx
      · left; rw [hx]
      · rcases List.mem_cons.mp hx with hx | hx
        · right; exact ⟨(k, row), List.mem_cons_self _ _, by rw [hx]⟩
        · right; exact ⟨x, List.mem_cons_of_mem _ hx, rfl⟩
    · rw [if_neg h1] at hx
      by_cases h2 : key = k
      · rw [if_pos h2] at hx
        rcases List.mem_cons.mp hx with hx | hx
        · right; exact ⟨(k, row), List.mem_cons_self _ _, by rw [hx]⟩
        · right; exact ⟨x, List.mem_cons_of_mem _ hx, rfl⟩
      · rw [if_neg h2] at hx
        rcases List.mem_cons.mp hx with hx | hx
        · right; exact ⟨(k, row), List.mem_cons_self _ _, by rw [hx]⟩
        · rcases ih x hx with h | ⟨y, hy, hxy⟩
          · left; exact h
          · right; exact ⟨y, List.mem_cons_of_mem _ hy, hxy⟩

/-- `insertOrdered` preserves the strictly-increasing-keys invariant of the
`BTreeMap` model. -/
theorem insertOrdered_pairwise (key p : Nat) :
    ∀ m, List.Pairwise (fun a b : Nat × List Nat => a.1 < b.1) m →
      List.Pairwise (fun a b : Nat × List Nat => a.1 < b.1)
        (insertOrdered key p m) := by
  intro m
  induction m with
  | nil => intro _; simp [insertOrdered]
  | cons hd tl ih =>
    obtain ⟨k, row⟩ := hd
    intro hm
    rw [List.pairwise_cons] at hm
    obtain ⟨hk, htl⟩ := hm
    rw [insertOrdered]
    by_cases h1 : key < k
    · rw [if_pos h1]
      refine List.Pairwise.cons ?_ (List.Pairwise.cons hk htl)
      intro y hy
      rcases List.mem_cons.mp hy with hy | hy
      · rw [hy]; exact h1
      · exact lt_trans h1 (hk y hy)
    · rw [if_neg h1]
      by_cases h2 : key = k
      · rw [if_pos h2]
        exact List.Pairwise.cons hk htl
      · rw [if_neg h2]
        refine List.Pairwise.cons ?_ (ih htl)
        intro y hy
        rcases insertOrdered_mem_key key p tl y hy with h | ⟨z, hz, hyz⟩
        · rw [h]
          exact lt_of_le_of_ne (Nat.not_lt.mp h1) (fun hkk => h2 hkk.symm)
        · rw [hyz]; exact hk z hz

/-- Inserting `(k, p)` prepends `p` to the paths stored under `k` and leaves
every other key's paths unchanged: no entry is dropped on a key collision. -/
theorem pathsAt_insertOrdered (key k p : Nat) :
    ∀ m, pathsAt key (insertOrdered k p m) =
      if k = key then p :: pathsAt key m else pathsAt key m := by
  intro m
  induction m with
  | nil => by_cases h : k = key <;> simp [insertOrdered, pathsAt, h]
  | cons hd tl ih =>
    obtain ⟨k0, row⟩ := hd
    by_cases h1 : k < k0
    · by_cases h : k = key
      · subst h; simp [insertOrdered, pathsAt, h1]
      · simp [insertOrdered, pathsAt, h1, h]
    · by_cases h2 : k = k0
      · subst h2
        by_cases h : k = key
        · subst h; simp [insertOrdered, pathsAt, h1]
        · simp [insertOrdered, pathsAt, h1, h]
      · by_cases h : k0 = key
        · subst h
          simp [insertOrdered, pathsAt, h1, h2, ih]
        · by_cases hk : k = key
          · subst hk
            simp [insertOrdered, pathsAt, h1, h2, h, ih]
          · simp [insertOrdered, pathsAt, h1, h2, h, hk, ih]

/-- The inner loop of `read_dir_sorted` preserves the sorted-keys invariant. -/
theorem readDirSortedInner_pairwise (max : Nat) :
    ∀ l count m c m1,
      List.Pairwise (fun a b : Nat × List Nat => a.1 < b.1) m →
      readDirSortedInner max l count m = .ok (c, m1) →
      List.Pairwise (fun a b : Nat × List Nat => a.1 < b.1) m1 := by
  intro l
  induction l with
  | nil =>
    intro count m c m1 hm h
    simp [readDirSortedInner] at h
    rw [← h.2]; exact hm
  | cons e rest ih =>
    intro count m c m1 hm h
    cases e with
    | error err => simp [readDirSortedInner] at h
    | ok info =>
      rw [readDirSortedInner] at h
      cases hmod : info.modified with
      | nanos n =>
        simp only [hmod] at h
        by_cases hc : count + 1 = max
        · rw [if_pos hc] at h
          simp only [Except.ok.injEq, Prod.mk.injEq] at h
          rw [← h.2]
          exact insertOrdered_pairwise n info.path m hm
        · rw [if_neg hc] at h
          exact ih _ _ _ _ (insertOrdered_pairwise n info.path m hm) h
      | metaErr e1 => simp only [hmod] at h; exact ih _ _ _ _ hm h
      | modifiedErr e1 => simp only [hmod] at h; exact ih _ _ _ _ hm h
      | epochErr e1 => simp only [hmod] at h; exact ih _ _ _ _ hm h

/-- The outer loop of `read_dir_sorted` preserves the sorted-keys invariant:
any normally-returned map is strictly ordered by key. -/
theorem readDirSortedLoop_pairwise (max : Nat) (env : Nat → SortedListing) :
    ∀ fuel pass count m c m1,
      List.Pairwise (fun a b : Nat × List Nat => a.1 < b.1) m →
      readDirSortedLoop max env fuel pass count m = some (.ok (c, m1)) →
      List.Pairwise (fun a b : Nat × List Nat => a.1 < b.1) m1 := by
  intro fuel
  induction fuel with
  | zero => intro pass count m c m1 hm h; simp [readDirSortedLoop] at h
  | succ n ih =>
    intro pass count m c m1 hm h
    rw [readDirSortedLoop] at h
    cases henv : env pass with
    | error e => simp only [henv] at h; simp at h
    | ok entries =>
      simp only [henv] at h
      cases hin : readDirSortedInner max entries count m with
      | error e => simp only [hin] at h; simp at h
      | ok pr =>
        obtain ⟨c1, m2⟩ := pr
        simp only [hin] at h
        have hm2 := readDirSortedInner_pairwise max entries count m c1 m2 hm hin
        by_cases hc : c1 = max
        · rw [if_pos hc] at h
          simp only [Option.some.injEq, Except.ok.injEq, Prod.mk.injEq] at h
          rw [← h.2]; exact hm2
        · rw [if_neg hc] at h
          exact ih _ _ _ _ _ hm2 h

/-- The `j`-th file the producer creates (0-based) when started at iteration
`k` is `file<k+j+1>.txt` with the fixed content. -/
theorem createFilesGo_get (sig : Nat → TryRecv) :
    ∀ fuel k j, j < (createFilesGo sig fuel k).length →
      (createFilesGo sig fuel k).get? j = some (mkFile (k + j + 1)) := by
  intro fuel
  induction fuel with
  | zero => intro k j h; simp [createFilesGo] at h
  | succ n ih =>
    intro k j h
    rw [createFilesGo] at h ⊢
    cases hs : sig k with
    | empty =>
      simp only [hs] at h ⊢
      cases j with
      | zero => simp
      | succ j0 =>
        simp only [List.length_cons] at h
        have hj : j0 < (createFilesGo sig n (k + 1)).length := by omega
        have hg := ih (k + 1) j0 hj
        have harith : k + 1 + j0 + 1 = k + (j0 + 1) + 1 := by omega
        rw [List.get?_cons_succ, hg, harith]
    | okUnit => simp only [hs] at h; simp at h
    | disconnected => simp only [hs] at h; simp at h

/-- Every iteration that created a file had first observed an absent Stop
Signal (`try_recv` returned `Empty`). -/
theorem createFilesGo_check (sig : Nat → TryRecv) :
    ∀ fuel k j, j < (createFilesGo sig fuel k).length → sig (k + j) = .empty := by
  intro fuel
  induction fuel with
  | zero => intro k j h; simp [createFilesGo] at h
  | succ n ih =>
    intro k j h
    rw [createFilesGo] at h
    cases hs : sig k with
    | empty =>
      simp only [hs, List.length_cons] at h
      cases j with
      | zero => simpa using hs
      | succ j0 =>
        have hj : j0 < (createFilesGo sig n (k + 1)).length := by omega
        have hc := ih (k + 1) j0 hj
        have harith : k + 1 + j0 = k + (j0 + 1) := by omega
        rw [← harith]; exact hc
    | okUnit => simp only [hs] at h; simp at h
    | disconnected => simp only [hs] at h; simp at h

/-- Applying `createFilesGo_check` from the producer's start: any created
iteration `j` had observed an absent signal. -/
theorem create_files_check (sig : Nat → TryRecv) (fuel j : Nat)
    (h : j < (create_files sig fuel).length) : sig j = .empty := by
  have hc := createFilesGo_check sig fuel 0 j h
  simpa using hc

/-- `sigOf setAt k = Empty` exactly when the check instant `2*k` precedes the
signal instant. -/
theorem sigOf_empty_iff (setAt k : Nat) :
    sigOf setAt k = TryRecv.empty ↔ 2 * k < setAt := by
  simp only [sigOf, observes]
  by_cases h : setAt ≤ 2 * k
  · rw [if_pos h]
    constructor
    · intro hc; simp at hc
    · omega
  · rw [if_neg h]
    constructor
    · intro _; omega
    · intro _; rfl

/-! ## Claims -/

/-- C1 counterexample: with target 1 and a single directory entry whose
`fs::metadata` call fails, `read_dir_sorted` returns normally with its
counter at the target and the ordered map still empty — the failing entry was
skipped from the map yet did count toward the target, against the claim that
it "does not count toward the target count". -/
theorem claim_C1_counterexample :
    read_dir_sorted 1 (fun _ => .ok [.ok ⟨0, .metaErr 5⟩]) 1
      = some (.ok (1, [])) := rfl

/-- C1 (amended): in `read_dir_sorted`, an entry whose metadata retrieval,
modification-time retrieval, or epoch-duration conversion fails is skipped
from the ordered map (only logged) but still counts toward the target: the
counter was already incremented before the lookups and is kept, and the
`continue` additionally skips that entry's `count == max` check. -/
theorem claim_C1_failed_entry_counts (max p : Nat) (e : Err)
    (rest : List (Except Err FileInfo)) (count : Nat) (m : OrderedFiles) :
    readDirSortedInner max (.ok ⟨p, .metaErr e⟩ :: rest) count m
        = readDirSortedInner max rest (count + 1) m ∧
    readDirSortedInner max (.ok ⟨p, .modifiedErr e⟩ :: rest) count m
        = readDirSortedInner max rest (count + 1) m ∧
    readDirSortedInner max (.ok ⟨p, .epochErr e⟩ :: rest) count m
        = readDirSortedInner max rest (count + 1) m :=
  ⟨rfl, rfl, rfl⟩

/-- C2 counterexample: with target 5 and a directory that is empty on the
first listing but holds five entries from the second listing on, `read_dir`
re-lists and returns with count 5, while `read_dir_tokio` — whose only
listing is the first one — still has not returned after 100 further polls of
the exhausted handle: the async strategy is not functionally equivalent to
the blocking one and does not re-list after an empty first pass. -/
theorem claim_C2_counterexample :
    read_dir 5 (fun pass => if pass = 0 then .ok [] else
        .ok [.ok ⟨1⟩, .ok ⟨2⟩, .ok ⟨3⟩, .ok ⟨4⟩, .ok ⟨5⟩]) 2 = some (.ok 5) ∧
    read_dir_tokio 5 (.ok []) 100 = .ok none :=
  ⟨rfl, rfl⟩

/-- C2 (amended): `read_dir_tokio` performs a single directory listing,
obtained once before its loop; it counts only `Ok(Some(_))` entries; once
that listing is exhausted before the target is reached, it never returns (it
keeps polling the exhausted handle and never performs another listing pass);
a per-entry error is silently skipped without counting or propagation
(unlike `read_dir`, which propagates it); a failure of the initial listing
call is fatal. -/
theorem claim_C2_tokio_single_listing (max : Nat) :
    (∀ fuel count, readDirTokioLoop max fuel [] count = none) ∧
    (∀ fuel count e rest,
        readDirTokioLoop max (fuel + 1) (.error e :: rest) count
          = readDirTokioLoop max fuel rest count) ∧
    (∀ fuel e, read_dir_tokio max (.error e) fuel = .error e) := by
  refine ⟨?_, ?_, ?_⟩
  · intro fuel
    induction fuel with
    | zero => intro count; rfl
    | succ n ih => intro count; rw [readDirTokioLoop]; exact ih count
  · intro fuel count e rest; rfl
  · intro fuel e; rfl

/-- C3 counterexample: on a stream whose items are all events without an
entry name, `read_inotify_async` with target 1 returns after one item (it
counted the nameless event), while `read_inotify` never counts such events
and is still looping after 5 batches — the two watch strategies do not have
identical counting semantics. -/
theorem claim_C3_counterexample :
    read_inotify_async 1 (fun _ => some (.ok ⟨none⟩)) 1 = some 1 ∧
    read_inotify 1 (fun _ => .ok [⟨none⟩]) 5 = none :=
  ⟨rfl, rfl⟩

/-- C3 (amended): `read_inotify_async` increments its counter once per stream
item regardless of the item's content — events with or without a name,
decode errors, and end-of-stream items all count — and returns exactly when
the number of consumed items reaches the target (the stream is universally
quantified, so the result does not depend on what the items are). -/
theorem claim_C3_async_counts_every_item (max : Nat) (stream : Nat → StreamItem)
    (idx count fuel : Nat) (hlt : count < max) (hfuel : max ≤ count + fuel) :
    readInotifyAsyncLoop max stream fuel idx count = some max := by
  induction fuel generalizing idx count with
  | zero => omega
  | succ n ih =>
    rw [readInotifyAsyncLoop]
    by_cases hc : count + 1 = max
    · rw [if_pos hc, hc]
    · rw [if_neg hc]
      exact ih (idx + 1) (count + 1) (by omega) (by omega)

/-- Witness for C3 (amended): a stream returning only end-of-stream items
still satisfies a target of 3 after exactly 3 items. -/
theorem claim_C3_async_counts_every_item_witness :
    readInotifyAsyncLoop 3 (fun _ => none) 5 0 0 = some 3 :=
  claim_C3_async_counts_every_item 3 (fun _ => none) 0 0 5 (by decide) (by decide)

/-- C4: the timing lines appear in the fixed strategy order with the claimed
names, but the digits printed after the dot are `Duration::as_millis()` — the
TOTAL milliseconds — not the milliseconds within the current second: for an
elapsed time of 1 s 500 ms the program prints `read_dir duration: 1.1500s`
where the spec's format reads `read_dir duration: 1.500s`.  The `{:0>3}`
pad-to-three-digits format spec shows a subsecond field was intended, so this
is a bug in the code. -/
theorem claim_C4_millis_format :
    durationLine "read_dir" ⟨1, 500⟩ = "read_dir duration: 1.1500s" ∧
    specDurationLine "read_dir" ⟨1, 500⟩ = "read_dir duration: 1.500s" ∧
    durationLine "read_dir" ⟨1, 500⟩ ≠ specDurationLine "read_dir" ⟨1, 500⟩ ∧
    mainOutputLines ⟨0, 7⟩ ⟨0, 7⟩ ⟨0, 7⟩ ⟨0, 7⟩ ⟨0, 7⟩ =
      [ "read_dir duration: 0.007s"
      , "read_dir_sorted duration: 0.007s"
      , "readdir tokio duration: 0.007s"
      , "inotify duration: 0.007s"
      , "inotify async duration: 0.007s" ] :=
  ⟨by decide, by decide, by decide, by decide⟩

/-- C5: whenever any of the five strategies returns normally, its observation
counter is at least the configured target count (in fact it equals it — see
the exact-count lemmas — so the `≥` bound of the spec holds). -/
theorem claim_C5_count_ge_target (max : Nat) (envU : Nat → Listing)
    (envS : Nat → SortedListing) (envW : Nat → Except Err (List InotifyEvent))
    (stream : Nat → StreamItem) (openRes : Listing) :
    (∀ fuel c, read_dir max envU fuel = some (.ok c) → max ≤ c) ∧
    (∀ fuel c m, read_dir_sorted max envS fuel = some (.ok (c, m)) → max ≤ c) ∧
    (∀ fuel c, read_dir_tokio max openRes fuel = .ok (some c) → max ≤ c) ∧
    (∀ fuel c, read_inotify max envW fuel = some (.ok c) → max ≤ c) ∧
    (∀ fuel c, read_inotify_async max stream fuel = some c → max ≤ c) := by
  refine ⟨?_, ?_, ?_, ?_, ?_⟩
  · intro fuel c h
    have := readDirLoop_ok_eq max envU fuel 0 0 c h
    omega
  · intro fuel c m h
    have := readDirSortedLoop_ok_eq max envS fuel 0 0 [] c m h
    omega
  · intro fuel c h
    cases openRes with
    | error e => simp [read_dir_tokio] at h
    | ok l =>
      simp only [read_dir_tokio, Except.ok.injEq] at h
      have := readDirTokioLoop_ok_eq max fuel l 0 c h
      omega
  · intro fuel c h
    have := readInotifyLoop_ok_eq max envW fuel 0 0 c h
    omega
  · intro fuel c h
    have := readInotifyAsyncLoop_ok_eq max stream fuel 0 0 c h
    omega

/-- Witness for C5: each strategy, on a one-entry environment with target 1,
returns with a counter of 1 ≥ 1. -/
theorem claim_C5_count_ge_target_witness :
    (read_dir 1 (fun _ => .ok [.ok ⟨0⟩]) 1 = some (.ok 1) ∧ (1 : Nat) ≤ 1) ∧
    (read_dir_sorted 1 (fun _ => .ok [.ok ⟨0, .nanos 7⟩]) 1
        = some (.ok (1, [(7, [0])])) ∧ (1 : Nat) ≤ 1) ∧
    (read_dir_tokio 1 (.ok [.ok ⟨0⟩]) 1 = .ok (some 1) ∧ (1 : Nat) ≤ 1) ∧
    (read_inotify 1 (fun _ => .ok [⟨some 3⟩]) 1 = some (.ok 1) ∧ (1 : Nat) ≤ 1) ∧
    (read_inotify_async 1 (fun _ => some (.ok ⟨some 3⟩)) 1 = some 1 ∧
        (1 : Nat) ≤ 1) :=
  have hall := claim_C5_count_ge_target 1 (fun _ => .ok [.ok ⟨0⟩])
    (fun _ => .ok [.ok ⟨0, .nanos 7⟩]) (fun _ => .ok [⟨some 3⟩])
    (fun _ => some (.ok ⟨some 3⟩)) (.ok [.ok ⟨0⟩])
  ⟨⟨rfl, hall.1 1 1 rfl⟩,
   ⟨rfl, hall.2.1 1 1 [(7, [0])] rfl⟩,
   ⟨rfl, hall.2.2.1 1 1 rfl⟩,
   ⟨rfl, hall.2.2.2.1 1 1 rfl⟩,
   ⟨rfl, hall.2.2.2.2 1 1 rfl⟩⟩

/-- C6: the sorted strategy's map is strictly ordered by ascending timestamp
key at all times (every insertion preserves the invariant, and any
normally-returned map satisfies it, starting from the empty map), and an
insertion prepends the path to the row of an existing equal key while
leaving all other rows unchanged — ties are all retained, none dropped. -/
theorem claim_C6_sorted_map_invariant (max : Nat) (env : Nat → SortedListing) :
    (∀ k p m, List.Pairwise (fun a b : Nat × List Nat => a.1 < b.1) m →
        List.Pairwise (fun a b : Nat × List Nat => a.1 < b.1)
          (insertOrdered k p m)) ∧
    (∀ fuel c m, read_dir_sorted max env fuel = some (.ok (c, m)) →
        List.Pairwise (fun a b : Nat × List Nat => a.1 < b.1) m) ∧
    (∀ key k p m, pathsAt key (insertOrdered k p m)
        = if k = key then p :: pathsAt key m else pathsAt key m) := by
  refine ⟨?_, ?_, ?_⟩
  · intro k p m hm
    exact insertOrdered_pairwise k p m hm
  · intro fuel c m h
    exact readDirSortedLoop_pairwise max env fuel 0 0 [] c m (by simp) h
  · intro key k p m
    exact pathsAt_insertOrdered key k p m

/-- Witness for C6: a concrete two-entry run yields the strictly ordered map
`[(3, [7]), (5, [9])]`, and inserting path 11 at the existing key 5 prepends
it to that key's row. -/
theorem claim_C6_sorted_map_invariant_witness :
    List.Pairwise (fun a b : Nat × List Nat => a.1 < b.1) [(3, [7]), (5, [9])] ∧
    pathsAt 5 (insertOrdered 5 11 [(3, [7]), (5, [9])])
      = if 5 = 5 then 11 :: pathsAt 5 [(3, [7]), (5, [9])]
        else pathsAt 5 [(3, [7]), (5, [9])] :=
  ⟨(claim_C6_sorted_map_invariant 2
        (fun _ => .ok [.ok ⟨9, .nanos 5⟩, .ok ⟨7, .nanos 3⟩])).2.1
      1 2 [(3, [7]), (5, [9])] rfl,
   (claim_C6_sorted_map_invariant 2 (fun _ => .ok [])).2.2 5 5 11
      [(3, [7]), (5, [9])]⟩

/-- C7: for every iteration `i ≥ 1` that reaches the creation step, the
producer's `i`-th created file (1-based, in creation order) is named
`file<i>.txt` and contains exactly `"Hello, world!"`. -/
theorem claim_C7_producer_files (sig : Nat → TryRecv) (fuel i : Nat)
    (h1 : 1 ≤ i) (h2 : i ≤ (create_files sig fuel).length) :
    (create_files sig fuel).get? (i - 1)
      = some { name := "file" ++ toString i ++ ".txt"
             , content := "Hello, world!" } := by
  have h : i - 1 < (create_files sig fuel).length := by omega
  have hg := createFilesGo_get sig fuel 0 (i - 1) h
  have harith : 0 + (i - 1) + 1 = i := by omega
  rw [harith] at hg
  exact hg

/-- Witness for C7: with the signal never set and fuel 3, the 2nd created
file is `file2.txt` containing `"Hello, world!"`. -/
theorem claim_C7_producer_files_witness :
    (create_files (fun _ => .empty) 3).get? 1
      = some { name := "file2.txt", content := "Hello, world!" } :=
  (claim_C7_producer_files (fun _ => .empty) 3 2 (by decide)
    (by decide)).trans (by decide)

/-- C8: with the Stop Signal set at producer-timeline instant `setAt` (checks
of iteration `k` happen at instant `2*k`, its creation at `2*k + 1`):
every check before the signal observes it absent; every check at or after it
observes it positive (`Ok`, or equivalently a disconnected sender); the
producer performs a bounded number of creations (at most `(setAt+1)/2`,
whatever the fuel); and any creation that is followed by another creation
happened strictly before the signal instant — so at most one file creation
occurs after the signal is set. -/
theorem claim_C8_stop_signal (setAt : Nat) :
    (∀ t, t < setAt → observes setAt t = TryRecv.empty) ∧
    (∀ t, setAt ≤ t → observes setAt t = TryRecv.okUnit) ∧
    (∀ fuel, 2 * (create_files (sigOf setAt) fuel).length ≤ setAt + 1) ∧
    (∀ fuel j1 j2, j1 < j2 → j2 < (create_files (sigOf setAt) fuel).length →
        2 * j1 + 1 < setAt) := by
  refine ⟨?_, ?_, ?_, ?_⟩
  · intro t ht
    rw [observes, if_neg (by omega)]
  · intro t ht
    rw [observes, if_pos ht]
  · intro fuel
    rcases Nat.eq_zero_or_pos (create_files (sigOf setAt) fuel).length with h0 | hpos
    · omega
    · have hlast : (create_files (sigOf setAt) fuel).length - 1
          < (create_files (sigOf setAt) fuel).length := by omega
      have hc := create_files_check (sigOf setAt) fuel _ hlast
      have := (sigOf_empty_iff setAt _).mp hc
      omega
  · intro fuel j1 j2 hj hlen
    have hc := create_files_check (sigOf setAt) fuel j2 hlen
    have := (sigOf_empty_iff setAt j2).mp hc
    omega

/-- Witness for C8 at `setAt = 3`: the check at instant 2 sees no signal, the
one at instant 5 sees it; with fuel 10 the producer stops after 2 creations
(`2*2 ≤ 4`); and creation 0, being followed by creation 1, happened at
instant 1, before the signal. -/
theorem claim_C8_stop_signal_witness :
    observes 3 2 = TryRecv.empty ∧ observes 3 5 = TryRecv.okUnit ∧
    2 * (create_files (sigOf 3) 10).length ≤ 3 + 1 ∧ 2 * 0 + 1 < 3 :=
  ⟨(claim_C8_stop_signal 3).1 2 (by decide),
   (claim_C8_stop_signal 3).2.1 5 (by decide),
   (claim_C8_stop_signal 3).2.2.1 10,
   (claim_C8_stop_signal 3).2.2.2 10 0 1 (by decide) (by decide)⟩

/-- C9: a wrong argument count aborts with `invalid number of arguments`
before any resource is created (empty effect list); a pre-existing target
path aborts with `Error: path .. exists`, also before any resource is
created; otherwise startup performs exactly `create_dir_all` (directory and
all parents) and does not panic. -/
theorem claim_C9_startup_checks (args : List String) (pathExists : Bool) :
    (args.length ≠ 2 →
        mainStartup args pathExists = ([], some "invalid number of arguments")) ∧
    (args.length = 2 → pathExists = true →
        mainStartup args pathExists
          = ([], some ("Error: path " ++ args.getD 1 "" ++ " exists"))) ∧
    (args.length = 2 → pathExists = false →
        mainStartup args pathExists
          = ([SetupEffect.createDirAll (args.getD 1 "")], none)) := by
  refine ⟨?_, ?_, ?_⟩
  · intro h
    simp [mainStartup, h]
  · intro h hp
    simp [mainStartup, h, hp]
  · intro h hp
    simp [mainStartup, h, hp]

/-- Witness for C9: one argument too few panics with no effects; an existing
path panics with no effects; the good case creates the directory. -/
theorem claim_C9_startup_checks_witness :
    mainStartup ["prog"] false = ([], some "invalid number of arguments") ∧
    mainStartup ["prog", "d"] true = ([], some "Error: path d exists") ∧
    mainStartup ["prog", "d"] false = ([SetupEffect.createDirAll "d"], none) :=
  ⟨(claim_C9_startup_checks ["prog"] false).1 (by decide),
   ((claim_C9_startup_checks ["prog", "d"] true).2.1 rfl rfl).trans (by decide),
   (claim_C9_startup_checks ["prog", "d"] false).2.2 rfl rfl⟩

/-- C10: the three blocking strategies (`read_dir`, `read_dir_sorted`,
`read_inotify`) check `count == max` immediately after each increment inside
the inner loop, so whenever one of them returns normally its counter equals
the target exactly — never an overshoot. -/
theorem claim_C10_exact_target (max : Nat) (hmax : 1 ≤ max)
    (envU : Nat → Listing) (envS : Nat → SortedListing)
    (envW : Nat → Except Err (List InotifyEvent)) :
    (∀ fuel c, read_dir max envU fuel = some (.ok c) → c = max) ∧
    (∀ fuel c m, read_dir_sorted max envS fuel = some (.ok (c, m)) → c = max) ∧
    (∀ fuel c, read_inotify max envW fuel = some (.ok c) → c = max) := by
  refine ⟨?_, ?_, ?_⟩
  · intro fuel c h
    exact readDirLoop_ok_eq max envU fuel 0 0 c h
  · intro fuel c m h
    exact readDirSortedLoop_ok_eq max envS fuel 0 0 [] c m h
  · intro fuel c h
    exact readInotifyLoop_ok_eq max envW fuel 0 0 c h

/-- Witness for C10: each blocking strategy, on a one-entry environment with
target 1, returns with a counter of exactly 1. -/
theorem claim_C10_exact_target_witness :
    (read_dir 1 (fun _ => .ok [.ok ⟨4⟩]) 1 = some (.ok 1) ∧ (1 : Nat) = 1) ∧
    (read_dir_sorted 1 (fun _ => .ok [.ok ⟨4, .nanos 2⟩]) 1
        = some (.ok (1, [(2, [4])])) ∧ (1 : Nat) = 1) ∧
    (read_inotify 1 (fun _ => .ok [⟨some 4⟩]) 1 = some (.ok 1) ∧ (1 : Nat) = 1) :=
  have hall := claim_C10_exact_target 1 (by decide) (fun _ => .ok [.ok ⟨4⟩])
    (fun _ => .ok [.ok ⟨4, .nanos 2⟩]) (fun _ => .ok [⟨some 4⟩])
  ⟨⟨rfl, hall.1 1 1 rfl⟩,
   ⟨rfl, hall.2.1 1 1 [(2, [4])] rfl⟩,
   ⟨rfl, hall.2.2 1 1 rfl⟩⟩
